import Mathlib

/-!
Verification development for the Harmony one-way directory synchronizer
(crates harmony-differ, harmony-server, harmony-client).

The differ (src/harmony-differ/src/diffing.rs) is embedded as pure Lean
functions over the same data model.  File sizes and timestamps are `u64`/`u32`
in the source; they are modelled as `Nat` (no arithmetic in the embedded code
can overflow at realistic values, and Rust `Duration` arithmetic panics rather
than wraps on overflow).  Rust `String` ordering is byte-wise lexicographic on
UTF-8, which coincides with the code-point lexicographic order used by Lean's
`String` linear order, so the sorting done by the differ is modelled with a
stable insertion sort over Lean's `String` order (Rust `sort_by` is a stable
sort, and stable sorts under the same total preorder agree).

The server routes (src/harmony-server/src/http/routes.rs, state.rs, paths.rs)
are embedded as state-passing functions over small explicit models of the
parts of the filesystem they touch.
-/

/-- Mirrors `SnapshotFileMetadata` in src/harmony-differ/src/snapshot.rs:
`size: u64`, `last_modif_date_s: u64`, `last_modif_date_ns: u32`. -/
structure SnapshotFileMetadata where
  size : Nat
  last_modif_date_s : Nat
  last_modif_date_ns : Nat
deriving DecidableEq, Repr

/-- Mirrors `SnapshotItemMetadata` in snapshot.rs: a directory or a file with
its metadata. -/
inductive SnapshotItemMetadata where
  | directory : SnapshotItemMetadata
  | file : SnapshotFileMetadata → SnapshotItemMetadata
deriving DecidableEq, Repr

/-- Mirrors `SnapshotItem` in snapshot.rs. -/
structure SnapshotItem where
  relative_path : String
  metadata : SnapshotItemMetadata
deriving DecidableEq, Repr

/-- Mirrors `Snapshot` in snapshot.rs (`from_dir` plus the item list). -/
structure Snapshot where
  from_dir : String
  items : List SnapshotItem
deriving DecidableEq, Repr

/-- Mirrors `DiffItemAdded` in diffing.rs. -/
structure DiffItemAdded where
  new : SnapshotItemMetadata
deriving DecidableEq, Repr

/-- Mirrors `DiffItemModified` in diffing.rs. -/
structure DiffItemModified where
  prev : SnapshotFileMetadata
  new : SnapshotFileMetadata
deriving DecidableEq, Repr

/-- Mirrors `DiffItemTypeChanged` in diffing.rs. -/
structure DiffItemTypeChanged where
  prev : SnapshotItemMetadata
  new : SnapshotItemMetadata
deriving DecidableEq, Repr

/-- Mirrors `DiffItemDeleted` in diffing.rs. -/
structure DiffItemDeleted where
  prev : SnapshotItemMetadata
deriving DecidableEq, Repr

/-- Mirrors `DiffType` in diffing.rs. -/
inductive DiffType where
  | added : DiffItemAdded → DiffType
  | modified : DiffItemModified → DiffType
  | type_changed : DiffItemTypeChanged → DiffType
  | deleted : DiffItemDeleted → DiffType
deriving DecidableEq, Repr

/-- Mirrors `DiffItem` in diffing.rs. -/
structure DiffItem where
  status : DiffType
  path : String
deriving DecidableEq, Repr

/-- Mirrors `Diff` in diffing.rs: the four buckets. -/
structure Diff where
  added : List (String × DiffItemAdded)
  modified : List (String × DiffItemModified)
  type_changed : List (String × DiffItemTypeChanged)
  deleted : List (String × DiffItemDeleted)
deriving DecidableEq, Repr

/-- Mirrors `Diff::new` (diffing.rs lines 19-40): partition a list of
`DiffItem`s into the four buckets, preserving relative order. -/
def Diff.new : List DiffItem → Diff
  | [] => ⟨[], [], [], []⟩
  | it :: rest =>
    let d := Diff.new rest
    match it.status with
    | .added a => { d with added := (it.path, a) :: d.added }
    | .modified m => { d with modified := (it.path, m) :: d.modified }
    | .type_changed t => { d with type_changed := (it.path, t) :: d.type_changed }
    | .deleted x => { d with deleted := (it.path, x) :: d.deleted }

/-- The modification instant of a file in nanoseconds since the epoch, as the
`Duration` value `Duration::from_secs(last_modif_date_s) +
Duration::from_nanos(last_modif_date_ns)` computed by
`Diff::apply_time_granularity` (diffing.rs lines 145-149). -/
def mtimeNs (m : SnapshotFileMetadata) : Nat :=
  m.last_modif_date_s * 1000000000 + m.last_modif_date_ns

/-- The retention predicate of the `filter` closure in
`Diff::apply_time_granularity` (diffing.rs lines 133-157): an entry is kept
when the sizes differ, otherwise when the absolute mtime difference is at most
the granularity (`checked_sub` on one side `or_else` the other, then
`diff_abs <= time_granularity`). -/
def keepModified (timeGranularityNs : Nat) (m : DiffItemModified) : Bool :=
  if m.new.size ≠ m.prev.size then
    true
  else
    (if mtimeNs m.prev ≤ mtimeNs m.new then mtimeNs m.new - mtimeNs m.prev
     else mtimeNs m.prev - mtimeNs m.new) ≤ timeGranularityNs

/-- Mirrors `Diff::apply_time_granularity` (diffing.rs lines 129-161): the
`modified` bucket is filtered through `keepModified`; the other buckets are
returned untouched. -/
def Diff.apply_time_granularity (d : Diff) (timeGranularityNs : Nat) : Diff :=
  { d with modified := d.modified.filter (fun x => keepModified timeGranularityNs x.2) }

/-- Lexicographic comparison of character lists; `chLe a b` holds when `a` is
lexicographically at most `b`.  This is Rust's `Ord` on `String` (byte-wise
lexicographic on UTF-8, which coincides with code-point lexicographic
order). -/
def chLe : List Char → List Char → Bool
  | [], _ => true
  | _ :: _, [] => false
  | a :: as, b :: bs => if a < b then true else if b < a then false else chLe as bs

/-- Rust's total order on `String` (used by `str::cmp` in diffing.rs):
lexicographic on the characters. -/
def strLe (s t : String) : Bool :=
  chLe s.data t.data

/-- The descending ordering on strings, as used by the comparator
`|a, b| b.cmp(a)` of `sort_rev_in_place`. -/
def strGe (a b : String) : Prop :=
  strLe b a = true

instance : DecidableRel strGe :=
  fun a b => inferInstanceAs (Decidable (strLe b a = true))

/-- Mirrors `sort_rev_in_place` (diffing.rs lines 304-307):
`vec.sort_by(|a, b| b.cmp(a))`, a stable sort into descending order.
Rust's `sort_by` is a stable sort; a stable insertion sort under the same
total preorder produces the same list. -/
def sort_rev_in_place (l : List String) : List String :=
  l.insertionSort strGe

/-- Mirrors `DiffApplyOps` in diffing.rs. -/
structure DiffApplyOps where
  create_dirs : List String
  send_files : List (String × SnapshotFileMetadata)
  delete_files : List String
  delete_empty_dirs : List String
deriving DecidableEq, Repr

/-- Mirrors `DiffApplyOps::new` (diffing.rs lines 220-302). -/
def DiffApplyOps.new (diff : Diff) : DiffApplyOps :=
  { create_dirs := sort_rev_in_place
      ((diff.added.filterMap (fun x =>
          match x.2.new with
          | .directory => some x.1
          | .file _ => none)) ++
        (diff.type_changed.filterMap (fun x =>
          match x.2.new with
          | .directory => some x.1
          | .file _ => none)))
    send_files :=
      (diff.added.filterMap (fun x =>
        match x.2.new with
        | .directory => none
        | .file mt => some (x.1, mt))) ++
      (diff.modified.map (fun x => (x.1, x.2.new))) ++
      (diff.type_changed.filterMap (fun x =>
        match x.2.new with
        | .directory => none
        | .file mt => some (x.1, mt)))
    delete_files :=
      ((diff.deleted.map (fun x => (x.1, x.2.prev))) ++
        (diff.type_changed.map (fun x => (x.1, x.2.prev)))).filterMap
        (fun x =>
          match x.2 with
          | .directory => none
          | .file _ => some x.1)
    delete_empty_dirs := sort_rev_in_place
      ((((diff.deleted.map (fun x => (x.1, x.2.prev))) ++
          (diff.type_changed.map (fun x => (x.1, x.2.prev)))).reverse).filterMap
        (fun x =>
          match x.2 with
          | .directory => some x.1
          | .file _ => none)) }

/-- Mirrors `Diff::ops` (diffing.rs lines 163-165). -/
def Diff.ops (d : Diff) : DiffApplyOps :=
  DiffApplyOps.new d

/-- The metadata stored for a path by `build_item_names_hashmap`
(diffing.rs lines 204-210): collecting an iterator of key-value pairs into a
Rust `HashMap` keeps the LAST pair for a duplicated key, so the lookup returns
the metadata of the last item bearing the path. -/
def lookupMeta : List SnapshotItem → String → Option SnapshotItemMetadata
  | [], _ => none
  | it :: rest, p =>
    match lookupMeta rest p with
    | some m => some m
    | none => if it.relative_path = p then some it.metadata else none

/-- The relative paths of a snapshot's items, in item order. -/
def sPaths (s : Snapshot) : List String :=
  s.items.map (fun it => it.relative_path)

/-- The `Added` half of `Diff::build` (diffing.rs lines 53-62): a path of
`local` that is not a path of `remote` yields an `Added` entry carrying the
hashmap metadata for that path.  The Rust code iterates the key-set
difference of two `HashSet`s in unspecified order; the order is irrelevant
because `Diff::build` sorts the combined list before returning (for snapshots
without duplicated paths the sorted result is order-independent). -/
def gAdd (loc remote : Snapshot) (p : String) : Option DiffItem :=
  if p ∈ sPaths remote then none
  else (lookupMeta loc.items p).map (fun m => ⟨.added ⟨m⟩, p⟩)

/-- The `Deleted` half of `Diff::build` (diffing.rs lines 66-75): a path of
`remote` that is not a path of `local` yields a `Deleted` entry carrying the
hashmap metadata for that path. -/
def gDel (loc remote : Snapshot) (p : String) : Option DiffItem :=
  if p ∈ sPaths loc then none
  else (lookupMeta remote.items p).map (fun m => ⟨.deleted ⟨m⟩, p⟩)

/-- The match of diffing.rs lines 89-120 comparing a source (`loc`) item's
metadata with the backed-up (`remote`) metadata under the same path: two
directories give nothing; a directory/file disagreement gives `TypeChanged`
(prev = remote, new = local); two files give `Modified` (prev = remote,
new = local) when their metadata differ. -/
def classifyPair (p : String) :
    SnapshotItemMetadata → SnapshotItemMetadata → Option DiffItem
  | .directory, .directory => none
  | .directory, .file fb => some ⟨.type_changed ⟨.file fb, .directory⟩, p⟩
  | .file fa, .directory => some ⟨.type_changed ⟨.directory, .file fa⟩, p⟩
  | .file fa, .file fb =>
    if fa = fb then none else some ⟨.modified ⟨fb, fa⟩, p⟩

/-- The `Modified`/`TypeChanged` pass of `Diff::build` (diffing.rs lines
79-122), applied to one item of `local`: when the item's path also appears in
`remote`, compare the item's metadata with the remote hashmap metadata. -/
def gCh (remote : Snapshot) (it : SnapshotItem) : Option DiffItem :=
  if it.relative_path ∈ sPaths remote then
    match lookupMeta remote.items it.relative_path with
    | none => none
    | some mr => classifyPair it.relative_path it.metadata mr
  else none

/-- The combined, unsorted diff list of `Diff::build` (diffing.rs lines
49-122): added entries, then deleted entries, then the modified/type-changed
pass over `local.items`.  The key sets of the two hashmaps are the
deduplicated path lists. -/
def buildRaw (loc remote : Snapshot) : List DiffItem :=
  ((sPaths loc).dedup.filterMap (gAdd loc remote) ++
    (sPaths remote).dedup.filterMap (gDel loc remote)) ++
    loc.items.filterMap (gCh remote)

/-- The ascending-by-path ordering used by `Diff::build`'s sort. -/
def pathLe (x y : DiffItem) : Prop :=
  strLe x.path y.path = true

instance : DecidableRel pathLe :=
  fun x y => inferInstanceAs (Decidable (strLe x.path y.path = true))

/-- Mirrors `diff.sort_by(|a, b| a.path.cmp(&b.path))` (diffing.rs line 124):
a stable sort ascending by path. -/
def sortByPath (l : List DiffItem) : List DiffItem :=
  l.insertionSort pathLe

/-- Mirrors `Diff::build` (diffing.rs lines 42-127). -/
def Diff.build (loc remote : Snapshot) : Diff :=
  Diff.new (sortByPath (buildRaw loc remote))

/-- HTTP error statuses used by the embedded routes
(src/harmony-server/src/http/errors.rs). -/
inductive HttpErr where
  | badRequest
  | forbidden
  | notFound
  | conflict
  | internalError
deriving DecidableEq, Repr

deriving instance DecidableEq for Except

/-- Splits a character list at '/' separators. -/
def splitSlashAux : List Char → List Char → List String
  | cur, [] => [String.mk cur.reverse]
  | cur, c :: rest =>
    if c = '/' then String.mk cur.reverse :: splitSlashAux [] rest
    else splitSlashAux (c :: cur) rest

/-- The components yielded by Rust's `Path::iter` for a path string: empty
segments vanish (repeated separators), and `.` segments are normalized away
except in leading position. -/
def pathComponents (p : String) : List String :=
  match (splitSlashAux [] p.data).filter (fun c => c ≠ "") with
  | [] => []
  | c :: rest => c :: rest.filter (fun x => x ≠ ".")

/-- True when the character list starts with '/'. -/
def hasRootChar : List Char → Bool
  | '/' :: _ => true
  | _ => false

/-- Mirrors `is_relative_linear_path` (src/harmony-server/src/paths.rs lines
49-51): `path.has_root() || path.iter().any(|c| c == "." || c == "..")`.
Contrary to what its name suggests, it returns `true` when the path is NOT a
safe relative path (absolute, or containing a `.` or `..` component). -/
def is_relative_linear_path (p : String) : Bool :=
  hasRootChar p.data || (pathComponents p).any (fun c => c = "." || c = "..")

/-- The construction of the `files` table in `OpenSync::new`
(src/harmony-server/src/http/state.rs lines 84-94): walk `send_files` in
order; an entry whose relative path fails the safety check aborts the whole
construction with BadRequest (`collect::<Result<_, _>>` short-circuits at the
first error); otherwise the entry is keyed by its relative path and paired
with a freshly minted id and the expected metadata.  Id minting
(`generate_id()`, a 32-character random alphanumeric string) is modelled by an
id source `idGen` applied at successive indices.  The Rust table is a
`HashMap` keyed by relative path; it is modelled as the association list in
`send_files` order (for duplicated paths the hashmap would keep the last
entry; theorems that depend on the table add a no-duplicate hypothesis). -/
def mkSyncFiles (idGen : Nat → String) :
    Nat → List (String × SnapshotFileMetadata) →
    Except HttpErr (List (String × String × SnapshotFileMetadata))
  | _, [] => .ok []
  | i, (p, mt) :: rest =>
    if is_relative_linear_path p then .error .badRequest
    else
      match mkSyncFiles idGen (i + 1) rest with
      | .error e => .error e
      | .ok fs => .ok ((p, idGen i, mt) :: fs)

/-- The table produced by a successful `mkSyncFiles` run: the i-th entry of
`send_files` keyed by its relative path and paired with the minted id
`idGen i` and its metadata. -/
def mintFiles (idGen : Nat → String) :
    Nat → List (String × SnapshotFileMetadata) →
    List (String × String × SnapshotFileMetadata)
  | _, [] => []
  | i, (p, mt) :: rest => (p, idGen i, mt) :: mintFiles idGen (i + 1) rest

/-- Mirrors `OpenSync` (state.rs lines 69-75): session id and token, the
captured diff and derived apply plan, and the `files` table mapping each
relative path to its minted file id and expected metadata. -/
structure OpenSyncM where
  id : String
  token : String
  diff : Diff
  diff_ops : DiffApplyOps
  files : List (String × String × SnapshotFileMetadata)
deriving DecidableEq, Repr

/-- Mirrors `OpenSync::new` (state.rs lines 77-98).  `idGen 0` plays the role
of the `generate_id()` call for `id`, `idGen 1` the one for `token`, and
`idGen (i + 2)` the one minting the id of the i-th `send_files` entry. -/
def OpenSyncM.new (d : Diff) (idGen : Nat → String) : Except HttpErr OpenSyncM :=
  match mkSyncFiles idGen 2 (d.ops).send_files with
  | .error e => .error e
  | .ok files =>
    .ok { id := idGen 0, token := idGen 1, diff := d, diff_ops := d.ops, files := files }

/-- Mirrors `SyncInfos` (src/harmony-server/src/http/routes.rs lines 111-116),
including the `tranfer_size` field-name typo of the source.
`transfer_file_ids` is a `HashMap<String, String>` in the source, modelled as
an association list. -/
structure SyncInfos where
  sync_token : String
  transfer_file_ids : List (String × String)
  tranfer_size : Nat
deriving DecidableEq, Repr

/-- The response assembled by `begin_sync` (routes.rs lines 172-187): the
session token, the `files` table collapsed to key-value pairs — the KEY of
`files` is the relative path and the first component of its value is the
minted file id, so each pair is (relative_path, file_id) — and the sum of the
`send_files` sizes. -/
def syncInfosOf (os : OpenSyncM) : SyncInfos :=
  { sync_token := os.token
    transfer_file_ids := os.files.map (fun y => (y.1, y.2.1))
    tranfer_size := (os.diff_ops.send_files.map (fun x => x.2.size)).sum }

/-- A flat model of the parts of the filesystem a route touches: the set of
existing file paths, as a list without meaningful order. -/
def FSState := List String
deriving DecidableEq, Repr

/-- Membership of a path in the filesystem model. -/
def fsHas (p : String) (fs : FSState) : Bool :=
  match fs with
  | [] => false
  | q :: rest => if p = q then true else fsHas p rest

/-- Removing a path from the filesystem model. -/
def fsRemove (p : String) (fs : FSState) : FSState :=
  match fs with
  | [] => []
  | q :: rest => if p = q then fsRemove p rest else q :: fsRemove p rest

/-- Creating (or truncating) a file at a path in the filesystem model. -/
def fsAdd (p : String) (fs : FSState) : FSState :=
  p :: fsRemove p fs

/-- `fs::rename(src, dst)`: fails when the source does not exist, otherwise
moves the source over the destination (overwriting it). -/
def fsRename (src dst : String) (fs : FSState) : Option FSState :=
  if fsHas src fs then some (fsAdd dst (fsRemove src fs)) else none

/-- Path join, as performed by `PathBuf::join` on the server for safe
segments. -/
def joinPath (dir p : String) : String :=
  dir ++ "/" ++ p

/-- Mirrors the transfer tail of `send_file` (routes.rs lines 439-523), after
the session lookup resolved `path` to `(file_id, metadata)`: delete a stale
pending file, create the pending file and stream the body into it (`written`
is the total streamed byte count), reject a size mismatch with BadRequest,
set the mtime (metadata-only, invisible to this model), rename the pending
file to `<content>/<path>`, then rename the SAME pending path — which the
previous rename just moved away — to `<complete>/<file_id>`.  Errors return
the filesystem state reached so far. -/
def send_file (fs : FSState) (pendingDir contentDir completeDir : String)
    (path fileId : String) (expectedSize written : Nat) :
    Except HttpErr Unit × FSState :=
  let tmpPath := joinPath pendingDir fileId
  let fs1 := fsAdd tmpPath (if fsHas tmpPath fs then fsRemove tmpPath fs else fs)
  if written ≠ expectedSize then (.error .badRequest, fs1)
  else
    match fsRename tmpPath (joinPath contentDir path) fs1 with
    | none => (.error .internalError, fs1)
    | some fs2 =>
      match fsRename tmpPath (joinPath completeDir fileId) fs2 with
      | none => (.error .internalError, fs2)
      | some fs3 => (.ok (), fs3)

/-- The remaining-files table computed by `resume_open_sync` (routes.rs lines
247-275): an entry of the session's `files` table is re-advertised exactly
when `<completion_dir>/<KEY>` does not exist — and the KEY of the table is
the relative path, not the minted file id.  `markers` is the list of file
names existing in the completion directory. -/
def resumeAdvertised (files : List (String × String × SnapshotFileMetadata))
    (markers : List String) : List (String × String × SnapshotFileMetadata) :=
  files.filter (fun f => !(fsHas f.1 markers))

/-- The response assembled by `resume_open_sync` (routes.rs lines 277-291):
the regenerated token, the remaining entries as (relative_path, file_id)
pairs, and the summed sizes of the `send_files` entries whose path is a key
of the remaining table. -/
def resumeSyncInfos (os : OpenSyncM) (markers : List String)
    (newToken : String) : SyncInfos :=
  let remaining := resumeAdvertised os.files markers
  { sync_token := newToken
    transfer_file_ids := remaining.map (fun y => (y.1, y.2.1))
    tranfer_size :=
      ((os.diff_ops.send_files.filter
        (fun x => remaining.any (fun y => y.1 = x.1))).map (fun x => x.2.size)).sum }

/-- The marker-verification loop of `finalize_sync` (routes.rs lines
333-352): for each `files` entry (in the hashmap's iteration order, here the
list order) require `<complete>/<file_id>` to exist — aborting with
BadRequest naming the entry's relative path when it does not — and REMOVE the
marker before moving to the next entry.  Returns the offending relative path
(if any) together with the completion-directory state at that point. -/
def finalizeCheckMarkers :
    List (String × String × SnapshotFileMetadata) → List String →
    Option String × List String
  | [], markers => (none, markers)
  | (rp, fid, _) :: rest, markers =>
    if fsHas fid markers then finalizeCheckMarkers rest (fsRemove fid markers)
    else (some rp, markers)

/-- The outcomes of the fallible filesystem calls made by `begin_sync`,
given as an oracle: whether `fs::create_dir`, `fs::remove_file` and
`fs::remove_dir` succeed on a given path. -/
structure FsEnv where
  createDirOk : String → Bool
  removeFileOk : String → Bool
  removeDirOk : String → Bool

/-- A filesystem action performed by `begin_sync`. -/
inductive FsAction where
  | createDir : String → FsAction
  | removeFile : String → FsAction
  | removeDir : String → FsAction
deriving DecidableEq, Repr

/-- One of the two pre-delete loops of `begin_sync` (routes.rs lines
158-170): act on each path joined under the content dir in order, stopping at
the first failure.  Returns whether all calls succeeded together with the
actions actually performed. -/
def runDeletes (ok : String → Bool) (mk : String → FsAction) (contentDir : String) :
    List String → Bool × List FsAction
  | [] => (true, [])
  | p :: rest =>
    if ok (joinPath contentDir p) then
      let r := runDeletes ok mk contentDir rest
      (r.1, mk (joinPath contentDir p) :: r.2)
    else (false, [])

/-- Whether every fallible filesystem step of `begin_sync` succeeds for a
given open-sync: the three directory creations, then every `delete_files`
removal, then every `delete_empty_dirs` removal. -/
def beginSyncStepsOk (env : FsEnv) (os : OpenSyncM)
    (transferDir pendingDir completeDir contentDir : String) : Bool :=
  env.createDirOk transferDir && env.createDirOk pendingDir &&
    env.createDirOk completeDir &&
    os.diff_ops.delete_files.all (fun p => env.removeFileOk (joinPath contentDir p)) &&
    os.diff_ops.delete_empty_dirs.all (fun p => env.removeDirOk (joinPath contentDir p))

/-- Mirrors `begin_sync` (routes.rs lines 118-193) for an existing slot:
reject with Forbidden when a session is already open; build the `OpenSync`
(which validates the `send_files` paths); create the transfer, pending and
completion directories; pre-delete `delete_files` then `delete_empty_dirs`
under the content dir; each failure aborts with the corresponding error and
WITHOUT storing the session; only after every step succeeded the response is
assembled and the session stored.  Returns (response, stored session,
filesystem actions performed). -/
def beginSync (env : FsEnv) (openSync0 : Option OpenSyncM) (d : Diff)
    (idGen : Nat → String)
    (transferDir pendingDir completeDir contentDir : String) :
    Except HttpErr SyncInfos × Option OpenSyncM × List FsAction :=
  match openSync0 with
  | some os => (.error .forbidden, some os, [])
  | none =>
    match OpenSyncM.new d idGen with
    | .error e => (.error e, none, [])
    | .ok os =>
      if env.createDirOk transferDir then
        if env.createDirOk pendingDir then
          if env.createDirOk completeDir then
            let dirLog := [FsAction.createDir transferDir,
              FsAction.createDir pendingDir, FsAction.createDir completeDir]
            let rf := runDeletes env.removeFileOk FsAction.removeFile contentDir
              os.diff_ops.delete_files
            if rf.1 then
              let rd := runDeletes env.removeDirOk FsAction.removeDir contentDir
                os.diff_ops.delete_empty_dirs
              if rd.1 then (.ok (syncInfosOf os), some os, dirLog ++ rf.2 ++ rd.2)
              else (.error .internalError, none, dirLog ++ rf.2 ++ rd.2)
            else (.error .internalError, none, dirLog ++ rf.2)
          else (.error .internalError, none,
            [FsAction.createDir transferDir, FsAction.createDir pendingDir])
        else (.error .internalError, none, [FsAction.createDir transferDir])
      else (.error .internalError, none, [])

/-- The role swap on a combined diff entry: exchanging the two snapshots of
`Diff::build` turns `Added` into `Deleted` (the added entry's `new` metadata
becoming the deleted entry's `prev`) and conversely, and swaps `prev`/`new`
in `Modified` and `TypeChanged`; the path is unchanged. -/
def swapRoles : DiffItem → DiffItem
  | ⟨.added a, p⟩ => ⟨.deleted ⟨a.new⟩, p⟩
  | ⟨.deleted x, p⟩ => ⟨.added ⟨x.prev⟩, p⟩
  | ⟨.modified m, p⟩ => ⟨.modified ⟨m.new, m.prev⟩, p⟩
  | ⟨.type_changed t, p⟩ => ⟨.type_changed ⟨t.new, t.prev⟩, p⟩

/-- Path-indexed form of the modified/type-changed pass of `Diff::build`: the
classification of a path present in both snapshots, `none` when the path is
missing on either side. -/
def chCls (loc remote : Snapshot) (p : String) : Option DiffItem :=
  match lookupMeta loc.items p, lookupMeta remote.items p with
  | some ml, some mr => classifyPair p ml mr
  | _, _ => none

/-- File metadata used by the concrete examples: size 3, mtime 100 s. -/
def mt3 : SnapshotFileMetadata := ⟨3, 100, 0⟩

/-- One second expressed in nanoseconds: the granularity the client passes to
`apply_time_granularity` (src/harmony-client/src/main.rs lines 413-414). -/
def oneSecondNs : Nat := 1000000000

/-- A modified entry whose sizes agree and whose mtimes differ by 0.3 s:
sub-granularity noise that the specification says must be dropped. -/
def noiseEntry : DiffItemModified := ⟨⟨5, 100, 0⟩, ⟨5, 100, 300000000⟩⟩

/-- A modified entry whose sizes agree and whose mtimes differ by 50 s: a
genuine modification that the specification says must be retained. -/
def realEntry : DiffItemModified := ⟨⟨5, 0, 0⟩, ⟨5, 50, 0⟩⟩

/-- A diff holding the two concrete modified entries. -/
def granDiff : Diff := ⟨[], [("noise.txt", noiseEntry), ("real.txt", realEntry)], [], []⟩

/-- A diff adding the directory `a` and its child directory `a/b`. -/
def dirsDiff : Diff := ⟨[("a", ⟨.directory⟩), ("a/b", ⟨.directory⟩)], [], [], []⟩

/-- A diff whose only path-escaping entry sits in the `deleted` bucket (a
deleted file at `../evil`), hence in `delete_files` of the derived plan. -/
def escDelDiff : Diff := ⟨[], [], [], [("../evil", ⟨.file ⟨1, 0, 0⟩⟩)]⟩

/-- A diff whose `added` bucket holds a path-escaping file, hence an unsafe
`send_files` entry. -/
def escAddDiff : Diff := ⟨[("../x", ⟨.file ⟨1, 0, 0⟩⟩)], [], [], []⟩

/-- A diff adding the single file `a.txt` of size 3. -/
def oneFileDiff : Diff := ⟨[("a.txt", ⟨.file mt3⟩)], [], [], []⟩

/-- A concrete id source: session id `sid`, session token `tok`, and `fid`
for every minted file id. -/
def idGenT : Nat → String :=
  fun n => if n = 0 then "sid" else if n = 1 then "tok" else "fid"

/-- An environment in which every filesystem call succeeds. -/
def envAllOk : FsEnv := ⟨fun _ => true, fun _ => true, fun _ => true⟩

/-- An environment in which every directory creation fails. -/
def envNoCreate : FsEnv := ⟨fun _ => false, fun _ => true, fun _ => true⟩

/-- A session `files` table with two entries, iterated in the listed order by
the finalize marker loop. -/
def finFiles : List (String × String × SnapshotFileMetadata) :=
  [("a.txt", "ida", mt3), ("b.txt", "idb", mt3)]

/-- A snapshot with a file `a` (size 1) and a directory `c`. -/
def snapA : Snapshot := ⟨"/src", [⟨"a", .file ⟨1, 10, 0⟩⟩, ⟨"c", .directory⟩]⟩

/-- A snapshot with a file `a` (size 2) and a directory `b`. -/
def snapB : Snapshot := ⟨"/dst", [⟨"a", .file ⟨2, 20, 0⟩⟩, ⟨"b", .directory⟩]⟩

/-- The open-sync produced by `OpenSyncM.new oneFileDiff idGenT`. -/
def osOne : OpenSyncM :=
  ⟨"sid", "tok", oneFileDiff, oneFileDiff.ops, [("a.txt", "fid", mt3)]⟩

/-! ## Helper lemmas -/



theorem mkSyncFiles_eq_error (idGen : Nat → String) (i : Nat)
    (l : List (String × SnapshotFileMetadata))
    (h : ∃ x ∈ l, is_relative_linear_path x.1 = true) :
    mkSyncFiles idGen i l = .error .badRequest := by
  induction l generalizing i with
  | nil => simp at h
  | cons x rest ih =>
    obtain ⟨p, mt⟩ := x
    by_cases hp : is_relative_linear_path p = true
    · simp [mkSyncFiles, hp]
    · have : ∃ x ∈ rest, is_relative_linear_path x.1 = true := by
        rcases h with ⟨y, hy, hyp⟩
        rcases List.mem_cons.mp hy with h1 | h1
        · subst h1; exact absurd hyp hp
        · exact ⟨y, h1, hyp⟩
      simp [mkSyncFiles, hp, ih _ this]

theorem mkSyncFiles_eq_ok (idGen : Nat → String) (i : Nat)
    (l : List (String × SnapshotFileMetadata))
    (h : ∀ x ∈ l, is_relative_linear_path x.1 = false) :
    mkSyncFiles idGen i l = .ok (mintFiles idGen i l) := by
  induction l generalizing i with
  | nil => rfl
  | cons x rest ih =>
    obtain ⟨p, mt⟩ := x
    have hp : is_relative_linear_path p = false := h _ (List.mem_cons_self _ _)
    have hrest : ∀ x ∈ rest, is_relative_linear_path x.1 = false :=
      fun x hx => h x (List.mem_cons_of_mem _ hx)
    simp [mkSyncFiles, hp, ih _ hrest, mintFiles]

theorem mkSyncFiles_ok_inv (idGen : Nat → String) (i : Nat)
    (l : List (String × SnapshotFileMetadata))
    (fs : List (String × String × SnapshotFileMetadata))
    (h : mkSyncFiles idGen i l = .ok fs) :
    fs = mintFiles idGen i l := by
  induction l generalizing i fs with
  | nil => simpa [mkSyncFiles, mintFiles] using h.symm
  | cons x rest ih =>
    obtain ⟨p, mt⟩ := x
    by_cases hp : is_relative_linear_path p = true
    · simp [mkSyncFiles, hp] at h
    · simp only [mkSyncFiles, hp] at h
      cases hrec : mkSyncFiles idGen (i + 1) rest with
      | error e => rw [hrec] at h; simp at h
      | ok fs2 =>
        rw [hrec] at h
        simp at h
        simp [mintFiles, ← h, ih _ _ hrec]

theorem mintFiles_meta_proj (idGen : Nat → String) (i : Nat)
    (l : List (String × SnapshotFileMetadata)) :
    (mintFiles idGen i l).map (fun y => (y.1, y.2.2)) = l := by
  induction l generalizing i with
  | nil => rfl
  | cons x rest ih =>
    obtain ⟨p, mt⟩ := x
    simp [mintFiles, ih]

theorem openSyncNew_ok_inv (d : Diff) (idGen : Nat → String) (os : OpenSyncM)
    (h : OpenSyncM.new d idGen = .ok os) :
    os = ⟨idGen 0, idGen 1, d, d.ops, mintFiles idGen 2 (d.ops).send_files⟩ := by
  cases hm : mkSyncFiles idGen 2 (d.ops).send_files with
  | error e => rw [OpenSyncM.new, hm] at h; simp at h
  | ok fs =>
    rw [OpenSyncM.new, hm] at h
    simp only [Except.ok.injEq] at h
    rw [← h]
    simp [mkSyncFiles_ok_inv _ _ _ _ hm]

theorem runDeletes_fst (ok : String → Bool) (mk : String → FsAction)
    (contentDir : String) (l : List String) :
    (runDeletes ok mk contentDir l).1 = l.all (fun p => ok (joinPath contentDir p)) := by
  induction l with
  | nil => rfl
  | cons p rest ih =>
    by_cases h : ok (joinPath contentDir p) = true
    · simp [runDeletes, h, ih]
    · simp only [Bool.not_eq_true] at h
      simp [runDeletes, h]

theorem chLe_cons_iff (a b : Char) (as bs : List Char) :
    chLe (a :: as) (b :: bs) = true ↔ (a < b ∨ (a = b ∧ chLe as bs = true)) := by
  simp only [chLe]
  split_ifs with h1 h2
  · simp [h1]
  · constructor
    · intro hf; simp at hf
    · rintro (h | ⟨h, _⟩)
      · exact absurd h h1
      · subst h; exact absurd h2 (lt_irrefl a)
  · have heq : a = b := le_antisymm (le_of_not_lt h2) (le_of_not_lt h1)
    rw [heq]
    simp [lt_irrefl]

theorem chLe_total (a b : List Char) : chLe a b = true ∨ chLe b a = true := by
  induction a generalizing b with
  | nil => left; rfl
  | cons x as ih =>
    cases b with
    | nil => right; rfl
    | cons y bs =>
      rcases lt_trichotomy x y with h | h | h
      · left; exact (chLe_cons_iff _ _ _ _).mpr (Or.inl h)
      · rcases ih bs with h2 | h2
        · left; exact (chLe_cons_iff _ _ _ _).mpr (Or.inr ⟨h, h2⟩)
        · right; exact (chLe_cons_iff _ _ _ _).mpr (Or.inr ⟨h.symm, h2⟩)
      · right; exact (chLe_cons_iff _ _ _ _).mpr (Or.inl h)

theorem chLe_trans (a b c : List Char) (h1 : chLe a b = true) (h2 : chLe b c = true) :
    chLe a c = true := by
  induction a generalizing b c with
  | nil => rfl
  | cons x as ih =>
    cases b with
    | nil => simp [chLe] at h1
    | cons y bs =>
      cases c with
      | nil => simp [chLe] at h2
      | cons z cs =>
        rcases (chLe_cons_iff _ _ _ _).mp h1 with hxy | ⟨hxy, htail1⟩ <;>
          rcases (chLe_cons_iff _ _ _ _).mp h2 with hyz | ⟨hyz, htail2⟩
        · exact (chLe_cons_iff _ _ _ _).mpr (Or.inl (lt_trans hxy hyz))
        · exact (chLe_cons_iff _ _ _ _).mpr (Or.inl (hyz ▸ hxy))
        · exact (chLe_cons_iff _ _ _ _).mpr (Or.inl (hxy ▸ hyz))
        · exact (chLe_cons_iff _ _ _ _).mpr (Or.inr ⟨hxy.trans hyz, ih bs cs htail1 htail2⟩)

theorem chLe_antisymm (a b : List Char) (h1 : chLe a b = true) (h2 : chLe b a = true) :
    a = b := by
  induction a generalizing b with
  | nil =>
    cases b with
    | nil => rfl
    | cons y bs => simp [chLe] at h2
  | cons x as ih =>
    cases b with
    | nil => simp [chLe] at h1
    | cons y bs =>
      rcases (chLe_cons_iff _ _ _ _).mp h1 with hxy | ⟨hxy, htail1⟩ <;>
        rcases (chLe_cons_iff _ _ _ _).mp h2 with hyx | ⟨hyx, htail2⟩
      · exact absurd (lt_trans hxy hyx) (lt_irrefl x)
      · exact absurd (hyx ▸ hxy) (lt_irrefl x)
      · exact absurd (hxy ▸ hyx) (lt_irrefl y)
      · rw [hxy, ih bs htail1 htail2]

theorem strLe_total (s t : String) : strLe s t = true ∨ strLe t s = true :=
  chLe_total s.data t.data

theorem strLe_trans (s t u : String) (h1 : strLe s t = true) (h2 : strLe t u = true) :
    strLe s u = true :=
  chLe_trans s.data t.data u.data h1 h2

theorem strLe_antisymm (s t : String) (h1 : strLe s t = true) (h2 : strLe t s = true) :
    s = t := by
  cases s with
  | mk a =>
    cases t with
    | mk b => rw [chLe_antisymm a b h1 h2]

theorem pathLe_total (x y : DiffItem) : pathLe x y ∨ pathLe y x :=
  strLe_total x.path y.path

theorem pathLe_trans (x y z : DiffItem) (h1 : pathLe x y) (h2 : pathLe y z) : pathLe x z :=
  strLe_trans x.path y.path z.path h1 h2

theorem sortByPath_sorted (l : List DiffItem) : (sortByPath l).Pairwise pathLe :=
  @List.sorted_insertionSort DiffItem pathLe _ ⟨pathLe_total⟩ ⟨pathLe_trans⟩ l

theorem sortByPath_perm (l : List DiffItem) : List.Perm (sortByPath l) l :=
  List.perm_insertionSort pathLe l

theorem eq_of_perm_pathSorted_nodup :
    ∀ (l₁ l₂ : List DiffItem), List.Perm l₁ l₂ → l₁.Pairwise pathLe → l₂.Pairwise pathLe →
      (l₁.map DiffItem.path).Nodup → l₁ = l₂
  | [], l₂, h, _, _, _ => (h.symm.eq_nil).symm ▸ rfl
  | a :: t₁, l₂, h, hs₁, hs₂, hnd => by
    cases l₂ with
    | nil => exact absurd h.eq_nil (by simp)
    | cons b t₂ =>
      have hab : a = b := by
        have ha2 : a ∈ b :: t₂ := h.subset (List.mem_cons_self _ _)
        rcases List.mem_cons.mp ha2 with h' | ha2
        · exact h'
        · have hb1 : b ∈ a :: t₁ := h.symm.subset (List.mem_cons_self _ _)
          rcases List.mem_cons.mp hb1 with h' | hb1
          · exact h'.symm
          · have hpab : pathLe a b := (List.pairwise_cons.mp hs₁).1 b hb1
            have hpba : pathLe b a := (List.pairwise_cons.mp hs₂).1 a ha2
            have hpeq : a.path = b.path := strLe_antisymm _ _ hpab hpba
            have : a.path ∉ (t₁.map DiffItem.path) := (List.nodup_cons.mp hnd).1
            exact absurd (hpeq ▸ List.mem_map_of_mem DiffItem.path hb1) this
      subst hab
      have htail : t₁ = t₂ :=
        eq_of_perm_pathSorted_nodup t₁ t₂ h.cons_inv
          (List.pairwise_cons.mp hs₁).2 (List.pairwise_cons.mp hs₂).2
          (List.nodup_cons.mp hnd).2
      rw [htail]

theorem swapRoles_path (it : DiffItem) : (swapRoles it).path = it.path := by
  obtain ⟨st, p⟩ := it
  cases st <;> rfl

theorem classifyPair_swap (p : String) (ma mb : SnapshotItemMetadata) :
    (classifyPair p ma mb).map swapRoles = classifyPair p mb ma := by
  cases ma with
  | directory =>
    cases mb with
    | directory => rfl
    | file fb => rfl
  | file fa =>
    cases mb with
    | directory => rfl
    | file fb =>
      by_cases h : fa = fb
      · simp [classifyPair, h]
      · simp [classifyPair, h, swapRoles]
        exact fun hh => h hh.symm

theorem lookupMeta_isSome_iff (items : List SnapshotItem) (p : String) :
    (lookupMeta items p).isSome = true ↔ p ∈ items.map (fun it => it.relative_path) := by
  induction items with
  | nil => simp [lookupMeta]
  | cons it rest ih =>
    cases h : lookupMeta rest p with
    | some m =>
      have : p ∈ rest.map (fun it => it.relative_path) := ih.mp (by simp [h])
      simp [lookupMeta, h, this]
    | none =>
      have hnm : ¬ p ∈ rest.map (fun it => it.relative_path) := fun hm => by
        have := ih.mpr hm
        rw [h] at this
        simp at this
      by_cases hp : it.relative_path = p
      · simp [lookupMeta, h, hp]
      · simp [lookupMeta, h, hp, hnm]
        exact fun hh => hp hh.symm

theorem lookupMeta_mem_of_some (items : List SnapshotItem) (p : String)
    (m : SnapshotItemMetadata) (h : lookupMeta items p = some m) :
    p ∈ items.map (fun it => it.relative_path) :=
  (lookupMeta_isSome_iff items p).mp (by simp [h])

theorem lookupMeta_none_of_not_mem (items : List SnapshotItem) (p : String)
    (h : ¬ p ∈ items.map (fun it => it.relative_path)) :
    lookupMeta items p = none := by
  cases hl : lookupMeta items p with
  | none => rfl
  | some m => exact absurd (lookupMeta_mem_of_some items p m hl) h

theorem lookupMeta_self_of_nodup (items : List SnapshotItem)
    (hnd : (items.map (fun it => it.relative_path)).Nodup) (it : SnapshotItem)
    (hit : it ∈ items) : lookupMeta items it.relative_path = some it.metadata := by
  induction items with
  | nil => simp at hit
  | cons it0 rest ih =>
    rcases List.mem_cons.mp hit with rfl | hmem
    · have hno : ¬ it.relative_path ∈ rest.map (fun x => x.relative_path) :=
        (List.nodup_cons.mp hnd).1
      simp [lookupMeta, lookupMeta_none_of_not_mem rest _ hno]
    · have := ih (List.nodup_cons.mp hnd).2 hmem
      simp [lookupMeta, this]

theorem gCh_eq_chCls (loc remote : Snapshot)
    (hnd : (sPaths loc).Nodup) (it : SnapshotItem) (hit : it ∈ loc.items) :
    gCh remote it = chCls loc remote it.relative_path := by
  have hself : lookupMeta loc.items it.relative_path = some it.metadata :=
    lookupMeta_self_of_nodup loc.items hnd it hit
  cases hr : lookupMeta remote.items it.relative_path with
  | none =>
    have hnm : ¬ it.relative_path ∈ sPaths remote := fun hm => by
      have := (lookupMeta_isSome_iff remote.items it.relative_path).mpr hm
      rw [hr] at this
      simp at this
    simp [gCh, chCls, hr, hself, hnm]
  | some mr =>
    have hm : it.relative_path ∈ sPaths remote :=
      lookupMeta_mem_of_some remote.items _ mr hr
    simp [gCh, chCls, hr, hself, hm]

theorem items_filterMap_gCh (loc remote : Snapshot) (hnd : (sPaths loc).Nodup) :
    loc.items.filterMap (gCh remote) = (sPaths loc).filterMap (chCls loc remote) := by
  have h1 : loc.items.filterMap (gCh remote)
      = loc.items.filterMap (fun it => chCls loc remote it.relative_path) :=
    List.filterMap_congr (fun it hit => gCh_eq_chCls loc remote hnd it hit)
  rw [h1, sPaths, List.filterMap_map]
  rfl

theorem chCls_swap (A B : Snapshot) (p : String) :
    (chCls A B p).map swapRoles = chCls B A p := by
  cases hA : lookupMeta A.items p with
  | none =>
    cases hB : lookupMeta B.items p with
    | none => simp [chCls, hA, hB]
    | some mb => simp [chCls, hA, hB]
  | some ma =>
    cases hB : lookupMeta B.items p with
    | none => simp [chCls, hA, hB]
    | some mb => simp [chCls, hA, hB, classifyPair_swap]

theorem chCls_support (A B : Snapshot) (p : String) (h : ¬ chCls A B p = none) :
    p ∈ sPaths A ∧ p ∈ sPaths B := by
  cases hA : lookupMeta A.items p with
  | none => exact absurd (by simp [chCls, hA]) h
  | some ma =>
    cases hB : lookupMeta B.items p with
    | none => exact absurd (by simp [chCls, hA, hB]) h
    | some mb =>
      exact ⟨lookupMeta_mem_of_some _ _ _ hA, lookupMeta_mem_of_some _ _ _ hB⟩

theorem filterMap_filter_isSome {α β : Type} (g : α → Option β) (l : List α) :
    l.filterMap g = (l.filter (fun a => (g a).isSome)).filterMap g := by
  induction l with
  | nil => rfl
  | cons a rest ih =>
    cases h : g a with
    | none => simp [List.filterMap_cons, List.filter_cons, h, ih]
    | some b => simp [List.filterMap_cons, List.filter_cons, h, ih]

theorem filterMap_perm_of_support {β : Type} (g : String → Option β)
    (l₁ l₂ : List String) (h₁ : l₁.Nodup) (h₂ : l₂.Nodup)
    (hsupp : ∀ p, ¬ g p = none → (p ∈ l₁ ↔ p ∈ l₂)) :
    List.Perm (l₁.filterMap g) (l₂.filterMap g) := by
  rw [filterMap_filter_isSome g l₁, filterMap_filter_isSome g l₂]
  refine List.Perm.filterMap g ?_
  refine (List.perm_ext_iff_of_nodup (h₁.filter _) (h₂.filter _)).mpr ?_
  intro p
  simp only [List.mem_filter]
  constructor
  · rintro ⟨hm, hs⟩
    exact ⟨(hsupp p (by simp [Option.isSome_iff_exists] at hs; rcases hs with ⟨b, hb⟩; simp [hb])).mp hm, hs⟩
  · rintro ⟨hm, hs⟩
    exact ⟨(hsupp p (by simp [Option.isSome_iff_exists] at hs; rcases hs with ⟨b, hb⟩; simp [hb])).mpr hm, hs⟩

theorem gAdd_swap (A B : Snapshot) (p : String) :
    (gAdd A B p).map swapRoles = gDel B A p := by
  unfold gAdd gDel
  by_cases h : p ∈ sPaths B
  · simp [h]
  · cases hl : lookupMeta A.items p <;> simp [h, hl, swapRoles]

theorem gDel_swap (A B : Snapshot) (p : String) :
    (gDel A B p).map swapRoles = gAdd B A p := by
  unfold gAdd gDel
  by_cases h : p ∈ sPaths A
  · simp [h]
  · cases hl : lookupMeta B.items p <;> simp [h, hl, swapRoles]

theorem gAdd_some_not_mem (A B : Snapshot) (p : String) (h : ¬ gAdd A B p = none) :
    ¬ p ∈ sPaths B := by
  intro hm
  exact h (by simp [gAdd, hm])

theorem gDel_some_not_mem (A B : Snapshot) (p : String) (h : ¬ gDel A B p = none) :
    ¬ p ∈ sPaths A := by
  intro hm
  exact h (by simp [gDel, hm])

theorem map_path_filterMap (g : String → Option DiffItem)
    (hg : ∀ p it, g p = some it → it.path = p) (l : List String) :
    (l.filterMap g).map DiffItem.path = l.filter (fun p => (g p).isSome) := by
  induction l with
  | nil => rfl
  | cons a rest ih =>
    cases h : g a with
    | none => simp [List.filterMap_cons, List.filter_cons, h, ih]
    | some it => simp [List.filterMap_cons, List.filter_cons, h, ih, hg a it h]

theorem gAdd_path (A B : Snapshot) (p : String) (it : DiffItem)
    (h : gAdd A B p = some it) : it.path = p := by
  by_cases hm : p ∈ sPaths B
  · simp [gAdd, hm] at h
  · cases hl : lookupMeta A.items p with
    | none => simp [gAdd, hm, hl] at h
    | some m =>
      simp [gAdd, hm, hl] at h
      rw [← h]

theorem gDel_path (A B : Snapshot) (p : String) (it : DiffItem)
    (h : gDel A B p = some it) : it.path = p := by
  by_cases hm : p ∈ sPaths A
  · simp [gDel, hm] at h
  · cases hl : lookupMeta B.items p with
    | none => simp [gDel, hm, hl] at h
    | some m =>
      simp [gDel, hm, hl] at h
      rw [← h]

theorem classifyPair_path (p : String) (ma mb : SnapshotItemMetadata) (it : DiffItem)
    (h : classifyPair p ma mb = some it) : it.path = p := by
  cases ma with
  | directory =>
    cases mb with
    | directory => simp [classifyPair] at h
    | file fb => simp [classifyPair] at h; rw [← h]
  | file fa =>
    cases mb with
    | directory => simp [classifyPair] at h; rw [← h]
    | file fb =>
      by_cases he : fa = fb
      · simp [classifyPair, he] at h
      · simp [classifyPair, he] at h; rw [← h]

theorem chCls_path (A B : Snapshot) (p : String) (it : DiffItem)
    (h : chCls A B p = some it) : it.path = p := by
  cases hA : lookupMeta A.items p with
  | none => simp [chCls, hA] at h
  | some ma =>
    cases hB : lookupMeta B.items p with
    | none => simp [chCls, hA, hB] at h
    | some mb =>
      rw [chCls, hA, hB] at h
      exact classifyPair_path p ma mb it h

theorem nodupPaths_buildRaw (A B : Snapshot)
    (hA : (sPaths A).Nodup) (hB : (sPaths B).Nodup) :
    ((buildRaw A B).map DiffItem.path).Nodup := by
  unfold buildRaw
  rw [items_filterMap_gCh A B hA, List.dedup_eq_self.mpr hA, List.dedup_eq_self.mpr hB]
  rw [List.map_append, List.map_append]
  rw [map_path_filterMap _ (gAdd_path A B), map_path_filterMap _ (gDel_path A B),
    map_path_filterMap _ (chCls_path A B)]
  refine List.Nodup.append (List.Nodup.append (hA.filter _) (hB.filter _) ?_)
    (hA.filter _) ?_
  · intro p hp1 hp2
    rw [List.mem_filter] at hp1 hp2
    exact gAdd_some_not_mem A B p (Option.ne_none_iff_isSome.mpr hp1.2) hp2.1
  · intro p hp hpz
    rw [List.mem_append] at hp
    rw [List.mem_filter] at hpz
    have hsup := chCls_support A B p (Option.ne_none_iff_isSome.mpr hpz.2)
    rcases hp with hp | hp
    · rw [List.mem_filter] at hp
      exact gAdd_some_not_mem A B p (Option.ne_none_iff_isSome.mpr hp.2) hsup.2
    · rw [List.mem_filter] at hp
      exact gDel_some_not_mem A B p (Option.ne_none_iff_isSome.mpr hp.2) hsup.1

theorem buildRaw_swap_perm (A B : Snapshot)
    (hA : (sPaths A).Nodup) (hB : (sPaths B).Nodup) :
    List.Perm (buildRaw B A) ((buildRaw A B).map swapRoles) := by
  unfold buildRaw
  rw [items_filterMap_gCh A B hA, items_filterMap_gCh B A hB,
    List.dedup_eq_self.mpr hA, List.dedup_eq_self.mpr hB]
  rw [List.map_append, List.map_append, List.map_filterMap, List.map_filterMap,
    List.map_filterMap]
  have e1 : (sPaths A).filterMap (fun p => (gAdd A B p).map swapRoles)
      = (sPaths A).filterMap (gDel B A) :=
    List.filterMap_congr (fun p _ => gAdd_swap A B p)
  have e2 : (sPaths B).filterMap (fun p => (gDel A B p).map swapRoles)
      = (sPaths B).filterMap (gAdd B A) :=
    List.filterMap_congr (fun p _ => gDel_swap A B p)
  have e3 : (sPaths A).filterMap (fun p => (chCls A B p).map swapRoles)
      = (sPaths A).filterMap (chCls B A) :=
    List.filterMap_congr (fun p _ => chCls_swap A B p)
  rw [e1, e2, e3]
  refine List.Perm.append List.perm_append_comm ?_
  refine filterMap_perm_of_support (chCls B A) (sPaths B) (sPaths A) hB hA ?_
  intro p h
  have hsup := chCls_support B A p h
  constructor
  · intro _; exact hsup.2
  · intro _; exact hsup.1

theorem build_sorted_swap (A B : Snapshot)
    (hA : (sPaths A).Nodup) (hB : (sPaths B).Nodup) :
    sortByPath (buildRaw B A) = (sortByPath (buildRaw A B)).map swapRoles := by
  refine eq_of_perm_pathSorted_nodup _ _ ?_ (sortByPath_sorted _) ?_ ?_
  · exact (sortByPath_perm _).trans
      ((buildRaw_swap_perm A B hA hB).trans ((sortByPath_perm _).symm.map swapRoles))
  · rw [List.pairwise_map]
    refine List.Pairwise.imp ?_ (sortByPath_sorted (buildRaw A B))
    intro a b hab
    unfold pathLe at *
    rw [swapRoles_path, swapRoles_path]
    exact hab
  · have hnd := nodupPaths_buildRaw B A hB hA
    have hperm : List.Perm ((sortByPath (buildRaw B A)).map DiffItem.path)
        ((buildRaw B A).map DiffItem.path) := (sortByPath_perm _).map _
    exact hperm.nodup_iff.mpr hnd

theorem diffNew_map_swap (l : List DiffItem) :
    (Diff.new (l.map swapRoles)).added
      = (Diff.new l).deleted.map (fun x => (x.1, DiffItemAdded.mk x.2.prev))
  ∧ (Diff.new (l.map swapRoles)).deleted
      = (Diff.new l).added.map (fun x => (x.1, DiffItemDeleted.mk x.2.new))
  ∧ (Diff.new (l.map swapRoles)).modified
      = (Diff.new l).modified.map (fun x => (x.1, DiffItemModified.mk x.2.new x.2.prev))
  ∧ (Diff.new (l.map swapRoles)).type_changed
      = (Diff.new l).type_changed.map
          (fun x => (x.1, DiffItemTypeChanged.mk x.2.new x.2.prev)) := by
  induction l with
  | nil => exact ⟨rfl, rfl, rfl, rfl⟩
  | cons it rest ih =>
    obtain ⟨st, p⟩ := it
    cases st <;>
      exact ⟨by simp [Diff.new, swapRoles, ih.1],
        by simp [Diff.new, swapRoles, ih.2.1],
        by simp [Diff.new, swapRoles, ih.2.2.1],
        by simp [Diff.new, swapRoles, ih.2.2.2]⟩

/-! ## Claim theorems -/

/-- C10: for every diff `d` and granularity, `apply_time_granularity` leaves
the `added`, `type_changed` and `deleted` sequences unchanged
element-for-element and in order; only the `modified` sequence is filtered
(through the code's retention predicate `keepModified`). -/
theorem apply_time_granularity_frame (d : Diff) (g : Nat) :
    (d.apply_time_granularity g).added = d.added ∧
    (d.apply_time_granularity g).type_changed = d.type_changed ∧
    (d.apply_time_granularity g).deleted = d.deleted ∧
    (d.apply_time_granularity g).modified
      = d.modified.filter (fun x => keepModified g x.2) :=
  ⟨rfl, rfl, rfl, rfl⟩

/-- C1: the time-granularity filter of the code is inverted with respect to
the claim.  On `granDiff` with granularity 1 s, the code RETAINS the
`noise.txt` entry (equal sizes, mtime difference 0.3 s ≤ 1 s) — which the
claim says must be dropped — and DROPS the `real.txt` entry (equal sizes,
mtime difference 50 s > 1 s) — which the claim says must be retained. -/
theorem apply_time_granularity_keeps_subgranularity_noise :
    (granDiff.apply_time_granularity oneSecondNs).modified
      = [("noise.txt", noiseEntry)] := by
  decide

/-- C3: `create_dirs` is NOT sorted ascending: on a diff adding directories
`a` and `a/b`, the derived plan lists the child `a/b` BEFORE its parent `a`,
because `DiffApplyOps::new` pipes the directory list through
`sort_rev_in_place`, a descending sort (`a` precedes `a/b` in the string
order, as the last two conjuncts check). -/
theorem create_dirs_sorted_descending :
    (DiffApplyOps.new dirsDiff).create_dirs = ["a/b", "a"] ∧
    strLe "a" "a/b" = true ∧ strLe "a/b" "a" = false := by
  decide

/-- C2: on a fully streamed transfer (3 bytes expected, 3 written) the
handler moves the pending file to the content tree but then fails: the
marker "creation" is a second `fs::rename` FROM the pending path that the
first rename just moved away, so it errors, the route answers InternalError
instead of ok, and no marker file exists at `<complete>/<file_id>` (while the
content file does exist). -/
theorem send_file_marker_rename_fails :
    (send_file [] "pending" "content" "complete" "a.txt" "f1" 3 3).1
      = .error .internalError ∧
    fsHas (joinPath "content" "a.txt")
      (send_file [] "pending" "content" "complete" "a.txt" "f1" 3 3).2 = true ∧
    fsHas (joinPath "complete" "f1")
      (send_file [] "pending" "content" "complete" "a.txt" "f1" 3 3).2 = false := by
  decide

/-- C7: the finalize marker loop deletes markers while it is still
verifying.  With session files `[(a.txt, ida), (b.txt, idb)]` and only the
marker `ida` present, the loop removes `ida` and then fails on `b.txt`
(BadRequest naming `b.txt`), leaving the completion directory EMPTY: the
marker `ida` that was present before the failing call is gone afterwards, so
a retried finalize can no longer succeed. -/
theorem finalize_removes_markers_before_full_check :
    finalizeCheckMarkers finFiles ["ida"] = (some "b.txt", []) ∧
    fsHas "ida" ["ida"] = true ∧ fsHas "ida" [] = false := by
  decide

/-- C5: resume re-advertises a file whose transfer is complete.  The session
built from `oneFileDiff` maps `a.txt` to the minted file id `fid`; even with
the marker `fid` present in the completion directory, `resume_open_sync`
checks for a marker named by the `files` KEY — the relative path `a.txt` —
finds none, and re-advertises the file with its full size 3, where the claim
requires an empty advertisement. -/
theorem resume_checks_markers_by_relative_path :
    (OpenSyncM.new oneFileDiff idGenT).map (fun os => resumeSyncInfos os ["fid"] "ntok")
      = .ok ⟨"ntok", [("a.txt", "fid")], 3⟩ ∧
    fsHas "fid" ["fid"] = true := by
  decide

/-- C4 counterexample: a diff whose only unsafe path (`../evil`, which has a
`..` component) sits in the `deleted` bucket — hence in `delete_files` of the
derived plan — is NOT rejected: `OpenSync::new` succeeds and `begin_sync`
answers ok and installs the session, where the claim requires BadRequest. -/
theorem open_sync_accepts_escaping_delete_paths :
    (OpenSyncM.new escDelDiff idGenT).isOk = true ∧
    is_relative_linear_path "../evil" = true ∧
    (escDelDiff.ops).delete_files = ["../evil"] ∧
    (beginSync envAllOk none escDelDiff idGenT "t" "p" "c" "k").1.isOk = true ∧
    (beginSync envAllOk none escDelDiff idGenT "t" "p" "c" "k").2.1.isSome = true := by
  decide

/-- C4 (amended): the path-escape validation of `open` covers exactly the
`send_files` paths of the derived plan.  When some `send_files` path is
unsafe, `OpenSync::new` fails with BadRequest and `begin_sync` returns that
error without installing a session and without performing any filesystem
action; when every `send_files` path is safe, `OpenSync::new` succeeds (even
if `delete_files` or `delete_empty_dirs` contain unsafe paths). -/
theorem open_sync_validates_only_send_files (d : Diff) (idGen : Nat → String)
    (env : FsEnv) (tDir pDir cDir contDir : String) :
    ((∃ x ∈ (d.ops).send_files, is_relative_linear_path x.1 = true) →
      OpenSyncM.new d idGen = .error .badRequest ∧
      beginSync env none d idGen tDir pDir cDir contDir = (.error .badRequest, none, []))
  ∧ ((∀ x ∈ (d.ops).send_files, is_relative_linear_path x.1 = false) →
      OpenSyncM.new d idGen
        = .ok ⟨idGen 0, idGen 1, d, d.ops, mintFiles idGen 2 (d.ops).send_files⟩) := by
  constructor
  · intro h
    have he : OpenSyncM.new d idGen = .error .badRequest := by
      rw [OpenSyncM.new, mkSyncFiles_eq_error idGen 2 _ h]
    exact ⟨he, by simp [beginSync, he]⟩
  · intro h
    rw [OpenSyncM.new, mkSyncFiles_eq_ok idGen 2 _ h]

/-- Witness for C4 (amended): `escAddDiff` has the unsafe send path `../x`,
and its open is rejected with BadRequest, no session, no filesystem action. -/
theorem open_sync_validates_only_send_files_witness :
    (∃ x ∈ (escAddDiff.ops).send_files, is_relative_linear_path x.1 = true) ∧
    OpenSyncM.new escAddDiff idGenT = .error .badRequest ∧
    beginSync envAllOk none escAddDiff idGenT "t" "p" "c" "k"
      = (.error .badRequest, none, []) :=
  ⟨by decide,
    ((open_sync_validates_only_send_files escAddDiff idGenT envAllOk
        "t" "p" "c" "k").1 (by decide)).1,
    ((open_sync_validates_only_send_files escAddDiff idGenT envAllOk
        "t" "p" "c" "k").1 (by decide)).2⟩

/-- C6 counterexample: for the diff adding `a.txt` with minted file id
`fid`, the map returned by `begin_sync` is `{a.txt → fid}` — keyed by
relative path with the file id as value — and the pair `(fid, a.txt)`
predicted by the claim (file_id → relative_path) is not in it. -/
theorem begin_sync_map_is_path_to_id :
    (beginSync envAllOk none oneFileDiff idGenT "t" "p" "c" "k").1
      = .ok ⟨"tok", [("a.txt", "fid")], 3⟩ ∧
    ¬ (("fid", "a.txt") ∈ [(("a.txt" : String), ("fid" : String))]) := by
  decide

/-- C6 (amended): for a successful open, the session's `files` table pairs
the i-th `send_files` entry, keyed by its relative path, with the i-th
freshly minted id; `transfer_file_ids` maps each relative path to its minted
file id (relative_path → file_id, the reverse of the claimed direction),
covering exactly the `send_files` entries; and the returned total size is the
sum of the `send_files` sizes.  The no-duplicate hypothesis makes the
association-list model coincide with the source's `HashMap`. -/
theorem begin_sync_sync_infos_characterization (d : Diff) (idGen : Nat → String)
    (os : OpenSyncM) (h : OpenSyncM.new d idGen = .ok os)
    (_hnd : ((d.ops).send_files.map (fun x => x.1)).Nodup) :
    os.files = mintFiles idGen 2 (d.ops).send_files
  ∧ (syncInfosOf os).transfer_file_ids = os.files.map (fun y => (y.1, y.2.1))
  ∧ os.files.map (fun y => (y.1, y.2.2)) = (d.ops).send_files
  ∧ (syncInfosOf os).tranfer_size = (((d.ops).send_files).map (fun x => x.2.size)).sum := by
  have hos := openSyncNew_ok_inv d idGen os h
  subst hos
  exact ⟨rfl, rfl, mintFiles_meta_proj idGen 2 _, rfl⟩

/-- Witness for C6 (amended) at the one-file diff. -/
theorem begin_sync_sync_infos_characterization_witness :
    OpenSyncM.new oneFileDiff idGenT = .ok osOne ∧
    ((oneFileDiff.ops).send_files.map (fun x => x.1)).Nodup ∧
    (syncInfosOf osOne).transfer_file_ids = osOne.files.map (fun y => (y.1, y.2.1)) :=
  ⟨by decide, by decide,
    (begin_sync_sync_infos_characterization oneFileDiff idGenT osOne
      (by decide) (by decide)).2.1⟩

/-- C8: for a slot with no open session, `begin_sync` stores a session if and
only if it answers ok; when `OpenSync::new` succeeded, the answer is ok
exactly when every filesystem step (the three directory creations and the two
pre-delete loops) succeeded; and any error leaves the slot's session unset. -/
theorem begin_sync_installs_session_only_after_success (env : FsEnv) (d : Diff)
    (idGen : Nat → String) (tDir pDir cDir contDir : String) :
    ((beginSync env none d idGen tDir pDir cDir contDir).2.1.isSome
        = (beginSync env none d idGen tDir pDir cDir contDir).1.isOk)
  ∧ (∀ os, OpenSyncM.new d idGen = .ok os →
      (beginSync env none d idGen tDir pDir cDir contDir).1.isOk
        = beginSyncStepsOk env os tDir pDir cDir contDir)
  ∧ ((beginSync env none d idGen tDir pDir cDir contDir).1.isOk = false →
      (beginSync env none d idGen tDir pDir cDir contDir).2.1 = none) := by
  cases hn : OpenSyncM.new d idGen with
  | error e =>
    refine ⟨by simp [beginSync, hn, Except.isOk, Except.toBool], ?_,
      by simp [beginSync, hn]⟩
    intro os hos
    simp at hos
  | ok os =>
    have core : (beginSync env none d idGen tDir pDir cDir contDir).2.1.isSome
          = (beginSync env none d idGen tDir pDir cDir contDir).1.isOk
        ∧ (beginSync env none d idGen tDir pDir cDir contDir).1.isOk
          = beginSyncStepsOk env os tDir pDir cDir contDir := by
      simp only [beginSync, hn, beginSyncStepsOk]
      cases h1 : env.createDirOk tDir with
      | false => simp [h1, Except.isOk, Except.toBool]
      | true =>
        cases h2 : env.createDirOk pDir with
        | false => simp [h1, h2, Except.isOk, Except.toBool]
        | true =>
          cases h3 : env.createDirOk cDir with
          | false => simp [h1, h2, h3, Except.isOk, Except.toBool]
          | true =>
            cases hrf : os.diff_ops.delete_files.all
                (fun p => env.removeFileOk (joinPath contDir p)) with
            | false =>
              simp [h1, h2, h3, Except.isOk, Except.toBool, runDeletes_fst, hrf]
            | true =>
              cases hrd : os.diff_ops.delete_empty_dirs.all
                  (fun p => env.removeDirOk (joinPath contDir p)) with
              | false =>
                simp [h1, h2, h3, Except.isOk, Except.toBool, runDeletes_fst, hrf, hrd]
              | true =>
                simp [h1, h2, h3, Except.isOk, Except.toBool, runDeletes_fst, hrf, hrd]
    refine ⟨core.1, ?_, ?_⟩
    · intro os2 hos2
      have hsame : os = os2 := by injection hos2
      subst hsame
      exact core.2
    · intro hfail
      have hiso := core.1
      rw [hfail] at hiso
      simpa using hiso

/-- Witness for C8: with every directory creation failing, begin on the
one-file diff installs nothing. -/
theorem begin_sync_installs_session_only_after_success_witness :
    (beginSync envNoCreate none oneFileDiff idGenT "t" "p" "c" "k").2.1 = none :=
  (begin_sync_installs_session_only_after_success envNoCreate oneFileDiff idGenT
    "t" "p" "c" "k").2.2 (by decide)

/-- C9: for snapshots without duplicated paths, exchanging the two arguments
of `Diff::build` turns `added` into `deleted` (the added entry's `new`
metadata equalling the deleted entry's `prev`) and conversely, and swaps
`prev`/`new` in `modified` and `type_changed`, element for element. -/
theorem diff_build_role_symmetry (A B : Snapshot)
    (hA : (sPaths A).Nodup) (hB : (sPaths B).Nodup) :
    (Diff.build B A).added
      = (Diff.build A B).deleted.map (fun x => (x.1, DiffItemAdded.mk x.2.prev))
  ∧ (Diff.build B A).deleted
      = (Diff.build A B).added.map (fun x => (x.1, DiffItemDeleted.mk x.2.new))
  ∧ (Diff.build B A).modified
      = (Diff.build A B).modified.map (fun x => (x.1, DiffItemModified.mk x.2.new x.2.prev))
  ∧ (Diff.build B A).type_changed
      = (Diff.build A B).type_changed.map
          (fun x => (x.1, DiffItemTypeChanged.mk x.2.new x.2.prev)) := by
  unfold Diff.build
  rw [build_sorted_swap A B hA hB]
  exact diffNew_map_swap _

/-- Witness for C9 at the concrete snapshots `snapA`, `snapB`. -/
theorem diff_build_role_symmetry_witness :
    ((sPaths snapA).Nodup ∧ (sPaths snapB).Nodup) ∧
    (Diff.build snapB snapA).added
      = (Diff.build snapA snapB).deleted.map (fun x => (x.1, DiffItemAdded.mk x.2.prev)) :=
  ⟨⟨by decide, by decide⟩, (diff_build_role_symmetry snapA snapB (by decide) (by decide)).1⟩
